import Mathlib

/-!
Verification of the auto-commit watcher.

Shallow embedding of `python-ml-foundation/18_logistic_regression/test.py`
(the "Auto-Commit Watcher"): status-line parsing (`get_changed_files`),
extension-based classification (`get_file_category`), diff analysis
(`analyze_notebook_changes`, `analyze_python_changes`), message synthesis
(`generate_smart_message`) and the commit loop of `main`.

Python string primitives (`in`, `count`, `split`, `strip`, `lower`,
slicing) are modelled on `List Char`; `pathlib.Path`'s `name`, `stem` and
`suffix` are modelled after their reference implementation (`rfind('.')`
with the `0 < i < len(name) - 1` guard).
-/

/-- Python `sub in s` restricted to lists of characters: some tail of `s`
starts with `sub`.  `startsWithL sub s` means `sub` is an initial segment
of `s`. -/
def startsWithL : List Char → List Char → Bool
  | [], _ => true
  | _ :: _, [] => false
  | a :: as, b :: bs => a == b && startsWithL as bs

/-- Python `sub in s` (substring containment, `True` for the empty needle). -/
def pyContainsL (sub : List Char) : List Char → Bool
  | [] => sub.isEmpty
  | c :: rest => startsWithL sub (c :: rest) || pyContainsL sub rest

/-- Greedy left-to-right count of non-overlapping occurrences, recursing
on a fuel bound so the recursion is structural (each step consumes at least
one character, so any fuel of at least `s.length` gives Python's
`s.count(sub)` for a non-empty `sub`). -/
def pyCountAux (sub : List Char) : Nat → List Char → Nat
  | 0, _ => 0
  | _ + 1, [] => 0
  | fuel + 1, c :: rest =>
    if startsWithL sub (c :: rest) then
      1 + pyCountAux sub fuel (rest.drop (sub.length - 1))
    else
      pyCountAux sub fuel rest

/-- Python `s.count(sub)` (only used with a non-empty `sub`, as in the
source). -/
def pyCountL (sub : List Char) (s : List Char) : Nat :=
  pyCountAux sub s.length s

/-- The separator `" -> "` used by `git status --porcelain` rename entries. -/
def arrowSep : List Char := [' ', '-', '>', ' ']

/-- Python `s.split(' -> ')`, specialised to the rename separator:
greedy left-to-right splitting at each non-overlapping occurrence.  Fueled
as `pyCountAux` is; any fuel of at least `s.length` gives Python's
semantics. -/
def pySplitArrowAux : Nat → List Char → List Char → List (List Char)
  | 0, s, acc => [acc.reverse ++ s]
  | _ + 1, [], acc => [acc.reverse]
  | fuel + 1, c :: rest, acc =>
    if startsWithL arrowSep (c :: rest) then
      acc.reverse :: pySplitArrowAux fuel (rest.drop 3) []
    else
      pySplitArrowAux fuel rest (c :: acc)

/-- Python `s.split(' -> ')`. -/
def pySplitArrow (s : List Char) : List (List Char) :=
  pySplitArrowAux s.length s []

/-- Python `s.strip()` on a character list. -/
def pyStripL (s : List Char) : List Char :=
  ((s.dropWhile Char.isWhitespace).reverse.dropWhile Char.isWhitespace).reverse

/-- Python `sub in s` on strings. -/
def pyContains (s sub : String) : Bool := pyContainsL sub.data s.data

/-- Python `s.count(sub)` on strings. -/
def pyCount (s sub : String) : Nat := pyCountL sub.data s.data

/-- Python `s.lower()` (the source only lowercases ASCII diff text). -/
def pyLower (s : String) : String := ⟨s.data.map Char.toLower⟩

/-- Python `s.strip()`. -/
def pyStrip (s : String) : String := ⟨pyStripL s.data⟩

/-- Python slicing `s[:n]`. -/
def pyTake (s : String) (n : Nat) : String := ⟨s.data.take n⟩

/-- Python slicing `s[n:]`. -/
def pyDrop (s : String) (n : Nat) : String := ⟨s.data.drop n⟩

/-- Index of the last occurrence of `target` in the list, if any
(Python `s.rfind(target)`, with `none` playing the role of `-1`). -/
def lastIdxAux (target : Char) : List Char → Nat → Option Nat → Option Nat
  | [], _, acc => acc
  | c :: rest, i, acc =>
    lastIdxAux target rest (i + 1) (if c == target then some i else acc)

/-- Python `name.rfind('.')` as an `Option Nat`. -/
def lastDotIdx (l : List Char) : Option Nat := lastIdxAux '.' l 0 none

/-- `pathlib.Path(p).name`: final path component (trailing slashes are
normalised away by `pathlib`). -/
def pyNameL (l : List Char) : List Char :=
  (((l.reverse.dropWhile (· == '/'))).takeWhile (· != '/')).reverse

/-- `pathlib.Path(p).name` on strings. -/
def pyName (p : String) : String := ⟨pyNameL p.data⟩

/-- `pathlib.Path(p).suffix`: extension of the final component, `""` when
the last dot is the first character, the last character, or absent. -/
def pySuffix (p : String) : String :=
  let n := pyNameL p.data
  match lastDotIdx n with
  | some i => if 0 < i ∧ i < n.length - 1 then ⟨n.drop i⟩ else ""
  | none => ""

/-- `pathlib.Path(p).stem`: final component without its suffix. -/
def pyStem (p : String) : String :=
  let n := pyNameL p.data
  match lastDotIdx n with
  | some i => if 0 < i ∧ i < n.length - 1 then ⟨n.take i⟩ else ⟨n⟩
  | none => ⟨n⟩

/-- The `FILE_CATEGORIES` table of the source, in declaration order. -/
def FILE_CATEGORIES : List (String × List String) :=
  [("notebooks", [".ipynb"]),
   ("python", [".py"]),
   ("data", [".csv", ".json", ".xlsx", ".xls", ".parquet", ".pkl", ".pickle"]),
   ("models", [".h5", ".keras", ".pt", ".pth", ".onnx", ".joblib", ".model"]),
   ("docs", [".md", ".txt", ".rst", ".pdf", ".docx"]),
   ("config", [".yaml", ".yml", ".toml", ".ini", ".cfg", ".config"]),
   ("web", [".html", ".css", ".js", ".jsx", ".ts", ".tsx"]),
   ("images", [".png", ".jpg", ".jpeg", ".gif", ".svg", ".webp"]),
   ("sql", [".sql"])]

/-- The `for category, extensions in FILE_CATEGORIES.items()` loop of
`get_file_category`: first entry whose extension list has the suffix wins. -/
def lookupCategory (ext : String) : List (String × List String) → String
  | [] => "other"
  | ce :: rest => if ext ∈ ce.2 then ce.1 else lookupCategory ext rest

/-- `get_file_category`: the first table entry whose extension list
contains the lowercased suffix, else `"other"`. -/
def get_file_category (filepath : String) : String :=
  lookupCategory (pyLower (pySuffix filepath)) FILE_CATEGORIES

/-- `analyze_notebook_changes`, with the diff text passed in explicitly
(the source obtains it from `git diff -- filepath`). -/
def analyze_notebook_changes (diffText : String) : List String :=
  let d := pyLower diffText
  let indicators :=
    (if pyContains d "matplotlib" || pyContains d "plt." || pyContains d "seaborn" then
      ["visualizations"] else []) ++
    (if pyContains d "train" || pyContains d "fit" || pyContains d "model" then
      ["model training"] else []) ++
    (if pyContains d "import" && pyContains d "+" then
      ["dependencies"] else []) ++
    (if pyContains d "read_csv" || pyContains d "load" then
      ["data loading"] else []) ++
    (if pyContains d "clean" || pyContains d "fillna" || pyContains d "dropna" then
      ["data cleaning"] else []) ++
    (if pyContains d "feature" || pyContains d "engineer" then
      ["feature engineering"] else []) ++
    (if pyContains d "accuracy" || pyContains d "score" || pyContains d "metric" then
      ["evaluation"] else [])
  if indicators = [] then ["notebook updates"] else indicators

/-- `additions` of `analyze_python_changes`:
`diff.count('\n+') - diff.count('\n+++')`. -/
def pyAdditions (diffText : String) : Int :=
  (pyCount diffText "\n+" : Int) - (pyCount diffText "\n+++" : Int)

/-- `deletions` of `analyze_python_changes`:
`diff.count('\n-') - diff.count('\n---')`. -/
def pyDeletions (diffText : String) : Int :=
  (pyCount diffText "\n-" : Int) - (pyCount diffText "\n---" : Int)

/-- `analyze_python_changes`, with the diff text passed in explicitly. -/
def analyze_python_changes (diffText : String) : List String :=
  let indicators :=
    (if pyContains diffText "def " && pyContains diffText "+def " then
      ["new functions"] else []) ++
    (if pyContains diffText "class " && pyContains diffText "+class " then
      ["new classes"] else []) ++
    (if pyContains diffText "import " && pyContains diffText "+import " then
      ["imports"] else []) ++
    (if pyContains (pyLower diffText) "fix" || pyContains (pyLower diffText) "bug" then
      ["bug fixes"] else [])
  if indicators = [] then
    [if pyAdditions diffText > pyDeletions diffText * 2 then "new code"
     else if pyDeletions diffText > pyAdditions diffText * 2 then "code cleanup"
     else "code changes"]
  else indicators

/-- The four change buckets returned by `get_changed_files` (`changes`
dictionary of the source). -/
structure Changes where
  added : List String
  modified : List String
  deleted : List String
  untracked : List String
deriving DecidableEq

/-- The priority-ordered bucket chosen for one status line. -/
inductive Bucket where
  | untracked
  | deleted
  | added
  | modified
deriving DecidableEq

/-- Rename handling of `get_changed_files`:
`if ' -> ' in filepath: filepath = filepath.split(' -> ')[1]`. -/
def resolveRename (fp : String) : String :=
  if pyContains fp " -> " then ⟨(pySplitArrow fp.data).getD 1 []⟩ else fp

/-- The path a status line contributes: `line[3:].strip()` with rename
resolution. -/
def linePath (line : String) : String :=
  resolveRename (pyStrip (pyDrop line 3))

/-- The bucket a status line lands in, from `status = line[:2]`:
`'??'` → untracked, else `'D' in status` → deleted, else `'A' in status`
(or the stripped status equals `'A'`) → added, else modified. -/
def classifyLine (line : String) : Bucket :=
  let status := pyTake line 2
  if pyStrip status = "??" then Bucket.untracked
  else if pyContains status "D" then Bucket.deleted
  else if pyContains status "A" || pyStrip status = "A" then Bucket.added
  else Bucket.modified

/-- Append a path to the bucket's list, as the source's `.append`. -/
def addToBucket (c : Changes) (b : Bucket) (p : String) : Changes :=
  match b with
  | Bucket.untracked => { c with untracked := c.untracked ++ [p] }
  | Bucket.deleted => { c with deleted := c.deleted ++ [p] }
  | Bucket.added => { c with added := c.added ++ [p] }
  | Bucket.modified => { c with modified := c.modified ++ [p] }

/-- One iteration of the status-line loop (`if not line: continue`). -/
def processLine (c : Changes) (line : String) : Changes :=
  if line = "" then c else addToBucket c (classifyLine line) (linePath line)

/-- `get_changed_files`, over the already-split list of porcelain status
lines. -/
def get_changed_files (lines : List String) : Changes :=
  lines.foldl processLine ⟨[], [], [], []⟩

/-- How often a path occurs across the four buckets. -/
def bucketCount (c : Changes) (p : String) : Nat :=
  c.added.count p + c.modified.count p + c.deleted.count p + c.untracked.count p

/-- `all_files` of `generate_smart_message`:
`added + modified + untracked + deleted`. -/
def all_files (c : Changes) : List String :=
  c.added ++ c.modified ++ c.untracked ++ c.deleted

/-- `categories[cat]` of `generate_smart_message`: the touched files of one
category, in `all_files` order. -/
def catFiles (c : Changes) (cat : String) : List String :=
  (all_files c).filter (fun f => get_file_category f == cat)

/-- `sum(len(v) for v in changes.values())` of `main`. -/
def totalChanges (c : Changes) : Nat :=
  c.added.length + c.modified.length + c.deleted.length + c.untracked.length

/-- The action phrase of `generate_smart_message` (Python truthiness of the
bucket lists). -/
def primary_action (c : Changes) : String :=
  if c.added ≠ [] ∨ c.untracked ≠ [] then
    if c.modified ≠ [] then "Add and update" else "Add"
  else if c.deleted ≠ [] then
    if c.modified ≠ [] then "Update and remove" else "Remove"
  else "Update"

/-- Python `', '.join`. -/
def joinComma : List String → String
  | [] => ""
  | [s] => s
  | s :: rest => s ++ (", " ++ joinComma rest)

/-- The notebooks part of the message (empty list when no notebook was
touched, otherwise exactly one part). -/
def notebooksPart (c : Changes) (diffOf : String → String) : List String :=
  match catFiles c "notebooks" with
  | [] => []
  | [nb] =>
    if nb ∈ c.modified then
      [pyStem nb ++ (": " ++ joinComma ((analyze_notebook_changes (diffOf nb)).take 2))]
    else
      [pyStem nb ++ " notebook"]
  | nbs => [toString nbs.length ++ " notebooks"]

/-- The Python-files part of the message. -/
def pythonPart (c : Changes) (diffOf : String → String) : List String :=
  match catFiles c "python" with
  | [] => []
  | [f] =>
    if f ∈ c.modified then
      [pyStem f ++ (".py: " ++ joinComma ((analyze_python_changes (diffOf f)).take 2))]
    else
      [pyStem f ++ ".py"]
  | fs =>
    if fs.length ≤ 3 then
      ["Python: " ++ joinComma (fs.map pyStem)]
    else
      [toString fs.length ++ " Python files"]

/-- The data-files part of the message. -/
def dataPart (c : Changes) : List String :=
  match catFiles c "data" with
  | [] => []
  | [f] => ["data: " ++ pyName f]
  | fs => [toString fs.length ++ " data files"]

/-- The model-files part of the message. -/
def modelsPart (c : Changes) : List String :=
  match catFiles c "models" with
  | [] => []
  | [f] => ["model: " ++ pyName f]
  | fs => [toString fs.length ++ " model files"]

/-- The docs part of the message. -/
def docsPart (c : Changes) : List String :=
  match catFiles c "docs" with
  | [] => []
  | [f] => ["docs: " ++ pyName f]
  | fs => [toString fs.length ++ " documentation files"]

/-- One part for a category outside the five specially-handled ones
(the body of `for cat in other_cats`). -/
def otherCatPart (c : Changes) (cat : String) : String :=
  match catFiles c cat with
  | [f] => pyName f
  | fs => toString fs.length ++ (" " ++ (cat ++ " files"))

/-- The five specially-handled categories. -/
def FIXED_CATS : List String := ["notebooks", "python", "data", "models", "docs"]

/-- The distinct categories of the touched files (`set(categories.keys())`). -/
def presentCats (c : Changes) : List String :=
  ((all_files c).map get_file_category).dedup

/-- `other_cats = set(categories.keys()) - {'notebooks','python','data','models','docs'}`.
The source iterates this Python set; the iteration order is
implementation-defined, so the synthesizer below takes it as an explicit
`ord` argument constrained (in the theorems) to be a permutation of this
list. -/
def otherCats (c : Changes) : List String :=
  (presentCats c).filter (fun cat => !(FIXED_CATS.contains cat))

/-- `ord` is an admissible iteration order of the source's `other_cats`
set for the change set `c`. -/
def validOrd (c : Changes) (ord : List String) : Prop :=
  ord.Perm (otherCats c)

/-- The `parts` list of `generate_smart_message`: the five fixed categories
in their fixed order, then one part per remaining category in set-iteration
order. -/
def messageParts (c : Changes) (diffOf : String → String) (ord : List String) : List String :=
  notebooksPart c diffOf ++ pythonPart c diffOf ++ dataPart c ++ modelsPart c ++
    docsPart c ++ ord.map (otherCatPart c)

/-- `generate_smart_message`: `None` on an empty change set, otherwise the
action phrase combined with the parts by the final punctuation rules. -/
def generate_smart_message (c : Changes) (diffOf : String → String)
    (ord : List String) : Option String :=
  if all_files c = [] then none
  else
    let action := primary_action c
    match messageParts c diffOf ord with
    | [] => some (action ++ (" " ++ (toString (all_files c).length ++ " files")))
    | [p] => some (action ++ (" " ++ p))
    | [p1, p2] => some (action ++ (" " ++ (p1 ++ (" and " ++ p2))))
    | p1 :: p2 :: rest =>
      some (action ++ (" " ++ (p1 ++ (", " ++ (p2 ++ (" (+" ++ (toString rest.length ++ " more)")))))))

/-- The mutating VCS-gateway operations a cycle can invoke
(`git add -A`, `git commit -m`, `git push`; the source has no operation
that undoes a commit). -/
inductive GitOp where
  | stageAll : GitOp
  | commitWith : String → GitOp
  | push : GitOp
deriving DecidableEq

/-- The user-visible reports one cycle of `main` prints. -/
inductive Event where
  | wouldCommit : String → Changes → Event
  | committedNote : String → Event
  | pushedNote : Event
  | pushWarn : Event
  | noChangesNote : Event
  | watching : Event
deriving DecidableEq

/-- The environment of one poll cycle: the collected change set, the
per-file diff texts, the set-iteration order for the remaining categories,
the CLI flags, and the gateway results of the three mutating calls. -/
structure CycleEnv where
  changes : Changes
  diffOf : String → String
  ord : List String
  dryRun : Bool
  pushFlag : Bool
  onceFlag : Bool
  stageOk : Bool
  commitOk : Bool
  pushOk : Bool

/-- The outcome of one cycle: the gateway operations invoked in order, the
increment of `commit_count`, and the printed reports. -/
structure CycleResult where
  ops : List GitOp
  commitInc : Nat
  events : List Event
deriving DecidableEq

/-- One iteration of the `while True` body of `main` (without the sleep):
collect → synthesize → (dry-run print | stage-and-commit → optional push). -/
def runCycle (e : CycleEnv) : CycleResult :=
  if totalChanges e.changes > 0 then
    match generate_smart_message e.changes e.diffOf e.ord with
    | some msg =>
      if e.dryRun then
        ⟨[], 0, [Event.wouldCommit msg e.changes]⟩
      else if e.stageOk then
        if e.commitOk then
          if e.pushFlag then
            ⟨[GitOp.stageAll, GitOp.commitWith msg, GitOp.push], 1,
             Event.committedNote msg :: (if e.pushOk then [Event.pushedNote] else [Event.pushWarn])⟩
          else
            ⟨[GitOp.stageAll, GitOp.commitWith msg], 1, [Event.committedNote msg]⟩
        else
          ⟨[GitOp.stageAll, GitOp.commitWith msg], 0, [Event.noChangesNote]⟩
      else
        ⟨[GitOp.stageAll], 0, [Event.noChangesNote]⟩
    | none => ⟨[], 0, []⟩
  else
    ⟨[], 0, if e.onceFlag then [] else [Event.watching]⟩

/-- The poll loop over the successive cycle environments until the watcher
stops: total value of `commit_count` and the concatenated reports. -/
def runLoop : List CycleEnv → Nat × List Event
  | [] => (0, [])
  | e :: rest =>
    let r := runCycle e
    let t := runLoop rest
    (r.commitInc + t.1, r.events ++ t.2)

/-- When no keyword family hits, `analyze_python_changes` falls back to the
single size-heuristic indicator. -/
theorem analyze_python_no_hits (diffText : String)
    (h1 : (pyContains diffText "def " && pyContains diffText "+def ") = false)
    (h2 : (pyContains diffText "class " && pyContains diffText "+class ") = false)
    (h3 : (pyContains diffText "import " && pyContains diffText "+import ") = false)
    (h4 : (pyContains (pyLower diffText) "fix" || pyContains (pyLower diffText) "bug") = false) :
    analyze_python_changes diffText =
      [if pyAdditions diffText > pyDeletions diffText * 2 then "new code"
       else if pyDeletions diffText > pyAdditions diffText * 2 then "code cleanup"
       else "code changes"] := by
  unfold analyze_python_changes
  simp only [h1, h2, h3, h4]
  simp

/-- The action phrase is never the empty string. -/
theorem primary_action_ne (c : Changes) : primary_action c ≠ "" := by
  unfold primary_action
  split_ifs <;> decide

/-- A string with a non-empty initial segment is non-empty. -/
theorem append_ne_empty (a b : String) (h : a ≠ "") : a ++ b ≠ "" := by
  obtain ⟨la⟩ := a
  obtain ⟨lb⟩ := b
  cases la with
  | nil => exact absurd rfl h
  | cons c tl =>
    intro hc
    have hd : c :: (tl ++ lb) = ([] : List Char) := congrArg String.data hc
    simp at hd

/-- On a non-empty change set the synthesizer returns the action phrase
followed by a blank and the rest of the message. -/
theorem gsm_some_form (c : Changes) (diffOf : String → String) (ord : List String)
    (h : all_files c ≠ []) :
    ∃ t, generate_smart_message c diffOf ord = some (primary_action c ++ (" " ++ t)) := by
  unfold generate_smart_message
  rw [if_neg h]
  split <;> exact ⟨_, rfl⟩

/-- C2: the action-phrase table of `generate_smart_message`: the
added/untracked branch takes precedence (even over a non-empty deleted
bucket), then the deleted branch, then the modified-only default. -/
theorem action_table (c : Changes) :
    ((c.added ≠ [] ∨ c.untracked ≠ []) → c.modified = [] → primary_action c = "Add") ∧
    ((c.added ≠ [] ∨ c.untracked ≠ []) → c.modified ≠ [] → primary_action c = "Add and update") ∧
    (c.added = [] → c.untracked = [] → c.deleted ≠ [] → c.modified = [] →
      primary_action c = "Remove") ∧
    (c.added = [] → c.untracked = [] → c.deleted ≠ [] → c.modified ≠ [] →
      primary_action c = "Update and remove") ∧
    (c.added = [] → c.untracked = [] → c.deleted = [] → primary_action c = "Update") := by
  unfold primary_action
  refine ⟨?_, ?_, ?_, ?_, ?_⟩ <;> intros <;> split_ifs <;> simp_all

/-- C2 witness: the table evaluated at concrete change sets; the first one
has both an added and a deleted file and still resolves to `"Add"`. -/
theorem action_table_check :
    primary_action ⟨["a.py"], [], ["b.csv"], []⟩ = "Add" ∧
    primary_action ⟨["a.py"], ["m.py"], [], []⟩ = "Add and update" ∧
    primary_action ⟨[], [], ["b.csv"], []⟩ = "Remove" ∧
    primary_action ⟨[], ["m.py"], ["b.csv"], []⟩ = "Update and remove" ∧
    primary_action ⟨[], ["m.py"], [], []⟩ = "Update" := by
  refine ⟨?_, ?_, ?_, ?_, ?_⟩
  · exact (action_table _).1 (Or.inl (by simp)) rfl
  · exact (action_table _).2.1 (Or.inl (by simp)) (by simp)
  · exact (action_table _).2.2.1 rfl rfl (by simp) rfl
  · exact (action_table _).2.2.2.1 rfl rfl (by simp) (by simp)
  · exact (action_table _).2.2.2.2 rfl rfl rfl

/-- C6: for a modified Python file whose diff hits none of the keyword
families, the analysis yields exactly one size-heuristic indicator:
`"new code"` when insertions exceed twice the removals, `"code cleanup"`
when removals exceed twice the insertions, `"code changes"` otherwise. -/
theorem size_heuristic_fallback (diffText : String)
    (h1 : (pyContains diffText "def " && pyContains diffText "+def ") = false)
    (h2 : (pyContains diffText "class " && pyContains diffText "+class ") = false)
    (h3 : (pyContains diffText "import " && pyContains diffText "+import ") = false)
    (h4 : (pyContains (pyLower diffText) "fix" || pyContains (pyLower diffText) "bug") = false) :
    (analyze_python_changes diffText).length = 1 ∧
    (pyAdditions diffText > pyDeletions diffText * 2 →
      analyze_python_changes diffText = ["new code"]) ∧
    (¬ pyAdditions diffText > pyDeletions diffText * 2 →
      pyDeletions diffText > pyAdditions diffText * 2 →
      analyze_python_changes diffText = ["code cleanup"]) ∧
    (¬ pyAdditions diffText > pyDeletions diffText * 2 →
      ¬ pyDeletions diffText > pyAdditions diffText * 2 →
      analyze_python_changes diffText = ["code changes"]) := by
  rw [analyze_python_no_hits diffText h1 h2 h3 h4]
  refine ⟨by simp, ?_, ?_, ?_⟩ <;> intros <;> split_ifs <;> simp_all

/-- C6 witness: a one-character diff hits no family and has balanced
counts, giving the `"code changes"` indicator. -/
theorem size_heuristic_fallback_check :
    analyze_python_changes "x" = ["code changes"] := by
  have h := size_heuristic_fallback "x" (by decide) (by decide) (by decide) (by decide)
  exact h.2.2.2 (by decide) (by decide)

/-- C5: the synthesizer returns nothing exactly on the all-empty change
set, and a non-empty message on every non-empty change set. -/
theorem synthesize_empty_none (c : Changes) (diffOf : String → String) (ord : List String) :
    (c.added = [] ∧ c.modified = [] ∧ c.deleted = [] ∧ c.untracked = [] →
      generate_smart_message c diffOf ord = none) ∧
    (¬(c.added = [] ∧ c.modified = [] ∧ c.deleted = [] ∧ c.untracked = []) →
      ∃ m, generate_smart_message c diffOf ord = some m ∧ m ≠ "") := by
  have hiff : all_files c = [] ↔
      (c.added = [] ∧ c.modified = [] ∧ c.deleted = [] ∧ c.untracked = []) := by
    unfold all_files
    simp only [List.append_eq_nil]
    tauto
  constructor
  · intro he
    unfold generate_smart_message
    rw [if_pos (hiff.mpr he)]
  · intro hne
    obtain ⟨t, ht⟩ := gsm_some_form c diffOf ord (fun hh => hne (hiff.mp hh))
    exact ⟨_, ht, append_ne_empty _ _ (primary_action_ne c)⟩

/-- C5 witness: nothing for the empty change set; some message for a
one-file change set. -/
theorem synthesize_empty_none_check :
    generate_smart_message ⟨[], [], [], []⟩ (fun _ => "") [] = none ∧
    (generate_smart_message ⟨["a.py"], [], [], []⟩ (fun _ => "") []).isSome = true := by
  constructor
  · exact (synthesize_empty_none ⟨[], [], [], []⟩ (fun _ => "") []).1 ⟨rfl, rfl, rfl, rfl⟩
  · obtain ⟨m, hm, _⟩ :=
      (synthesize_empty_none ⟨["a.py"], [], [], []⟩ (fun _ => "") []).2 (by simp)
    rw [hm]
    rfl

/-- C1 counterexample: for the change set `{modified: ["train.py"]}` with a
diff containing `model.fit` and `accuracy_score`, the message is not
`"Update train.py: model training, evaluation"` — a modified `.py` file is
analysed by `analyze_python_changes`, which has no `model training` or
`evaluation` indicator (those belong to the notebook analyzer); here it
yields `"Update train.py: new code"`. -/
theorem scenarioB_counterexample :
    generate_smart_message ⟨[], ["train.py"], [], []⟩
        (fun _ => "+ model.fit(X_train)\n+ accuracy_score(y_test, y_pred)") [] ≠
      some "Update train.py: model training, evaluation" := by
  decide

/-- C1 amended: for the change set `{modified: ["train.py"]}`, the message
is `"Update train.py: "` followed by what `analyze_python_changes`
produces; for a diff (such as one containing `model.fit` and
`accuracy_score`) that hits none of the Python keyword families, that is
the size-heuristic indicator. -/
theorem scenarioB_amended (diffText : String)
    (h1 : (pyContains diffText "def " && pyContains diffText "+def ") = false)
    (h2 : (pyContains diffText "class " && pyContains diffText "+class ") = false)
    (h3 : (pyContains diffText "import " && pyContains diffText "+import ") = false)
    (h4 : (pyContains (pyLower diffText) "fix" || pyContains (pyLower diffText) "bug") = false) :
    generate_smart_message ⟨[], ["train.py"], [], []⟩ (fun _ => diffText) [] =
      some ("Update train.py: " ++
        (if pyAdditions diffText > pyDeletions diffText * 2 then "new code"
         else if pyDeletions diffText > pyAdditions diffText * 2 then "code cleanup"
         else "code changes")) := by
  have key : generate_smart_message ⟨[], ["train.py"], [], []⟩ (fun _ => diffText) [] =
      some ("Update" ++ (" " ++ ("train" ++ (".py: " ++
        joinComma ((analyze_python_changes diffText).take 2))))) := rfl
  rw [key, analyze_python_no_hits diffText h1 h2 h3 h4]
  split_ifs <;> rfl

/-- C1 amended witness: the scenario's diff substrings with balanced
insertion and removal counts give `"Update train.py: code changes"`. -/
theorem scenarioB_amended_check :
    generate_smart_message ⟨[], ["train.py"], [], []⟩
        (fun _ => "model.fit accuracy_score") [] =
      some ("Update train.py: " ++
        (if pyAdditions "model.fit accuracy_score" >
              pyDeletions "model.fit accuracy_score" * 2 then "new code"
         else if pyDeletions "model.fit accuracy_score" >
              pyAdditions "model.fit accuracy_score" * 2 then "code cleanup"
         else "code changes")) :=
  scenarioB_amended "model.fit accuracy_score" (by decide) (by decide) (by decide) (by decide)

/-- C4 counterexample: the diff analysis itself is not capped at two
indicators — a notebook diff hitting four keyword families returns four. -/
theorem indicator_cap_counterexample :
    ¬ (analyze_notebook_changes "matplotlib train import + read_csv").length ≤ 2 := by
  decide

/-- C4 amended: the analyzers return all keyword-family matches in
declaration order, possibly more than two; it is the message synthesizer
that retains only the first two (`indicators[:2]`) and discards the rest,
as the message for a single modified notebook shows. -/
theorem indicator_cap_amended (diffText : String) (nb : String)
    (hcat : get_file_category nb = "notebooks") :
    ((analyze_notebook_changes diffText).take 2).length ≤ 2 ∧
    ((analyze_python_changes diffText).take 2).length ≤ 2 ∧
    (analyze_notebook_changes diffText).take 2 ++ (analyze_notebook_changes diffText).drop 2 =
      analyze_notebook_changes diffText ∧
    generate_smart_message ⟨[], [nb], [], []⟩ (fun _ => diffText) [] =
      some ("Update " ++ (pyStem nb ++ (": " ++
        joinComma ((analyze_notebook_changes diffText).take 2)))) := by
  refine ⟨by simp, by simp, List.take_append_drop 2 _, ?_⟩
  have hfilter1 : catFiles ⟨[], [nb], [], []⟩ "notebooks" = [nb] := by
    simp [catFiles, all_files, List.filter, hcat]
  have hfilter2 : catFiles ⟨[], [nb], [], []⟩ "python" = [] := by
    simp [catFiles, all_files, List.filter, hcat]
  have hfilter3 : catFiles ⟨[], [nb], [], []⟩ "data" = [] := by
    simp [catFiles, all_files, List.filter, hcat]
  have hfilter4 : catFiles ⟨[], [nb], [], []⟩ "models" = [] := by
    simp [catFiles, all_files, List.filter, hcat]
  have hfilter5 : catFiles ⟨[], [nb], [], []⟩ "docs" = [] := by
    simp [catFiles, all_files, List.filter, hcat]
  have hnotebook : notebooksPart ⟨[], [nb], [], []⟩ (fun _ => diffText) =
      [pyStem nb ++ (": " ++ joinComma ((analyze_notebook_changes diffText).take 2))] := by
    unfold notebooksPart
    rw [hfilter1]
    simp
  have hpython : pythonPart ⟨[], [nb], [], []⟩ (fun _ => diffText) = [] := by
    unfold pythonPart
    rw [hfilter2]
  have hparts : messageParts ⟨[], [nb], [], []⟩ (fun _ => diffText) [] =
      [pyStem nb ++ (": " ++ joinComma ((analyze_notebook_changes diffText).take 2))] := by
    unfold messageParts
    rw [hnotebook, hpython]
    simp [dataPart, modelsPart, docsPart, hfilter3, hfilter4, hfilter5]
  unfold generate_smart_message
  rw [if_neg (by simp [all_files]), hparts]
  rfl

/-- C4 amended witness: the four-family diff of the counterexample, on a
modified notebook, contributes only its first two indicators to the
message. -/
theorem indicator_cap_amended_check :
    generate_smart_message ⟨[], ["nb.ipynb"], [], []⟩
        (fun _ => "matplotlib train import + read_csv") [] =
      some ("Update " ++ (pyStem "nb.ipynb" ++ (": " ++
        joinComma ((analyze_notebook_changes "matplotlib train import + read_csv").take 2)))) :=
  (indicator_cap_amended "matplotlib train import + read_csv" "nb.ipynb" (by decide)).2.2.2

/-- The notebooks part only reads diffs of touched files. -/
theorem notebooksPart_congr (c : Changes) (d₁ d₂ : String → String)
    (hd : ∀ f ∈ all_files c, d₁ f = d₂ f) :
    notebooksPart c d₁ = notebooksPart c d₂ := by
  unfold notebooksPart
  cases hcf : catFiles c "notebooks" with
  | nil => rfl
  | cons nb tl =>
    cases tl with
    | nil =>
      have hmem : nb ∈ all_files c := by
        have hin : nb ∈ catFiles c "notebooks" := by
          rw [hcf]; exact List.mem_singleton_self nb
        exact List.mem_of_mem_filter hin
      simp only [hd nb hmem]
    | cons b tl2 => rfl

/-- The Python part only reads diffs of touched files. -/
theorem pythonPart_congr (c : Changes) (d₁ d₂ : String → String)
    (hd : ∀ f ∈ all_files c, d₁ f = d₂ f) :
    pythonPart c d₁ = pythonPart c d₂ := by
  unfold pythonPart
  cases hcf : catFiles c "python" with
  | nil => rfl
  | cons f tl =>
    cases tl with
    | nil =>
      have hmem : f ∈ all_files c := by
        have hin : f ∈ catFiles c "python" := by
          rw [hcf]; exact List.mem_singleton_self f
        exact List.mem_of_mem_filter hin
      simp only [hd f hmem]
    | cons b tl2 => rfl

/-- The parts list only reads diffs of touched files. -/
theorem messageParts_congr (c : Changes) (d₁ d₂ : String → String) (ord : List String)
    (hd : ∀ f ∈ all_files c, d₁ f = d₂ f) :
    messageParts c d₁ ord = messageParts c d₂ ord := by
  unfold messageParts
  rw [notebooksPart_congr c d₁ d₂ hd, pythonPart_congr c d₁ d₂ hd]

/-- C8 counterexample: two admissible set-iteration orders of the
remaining categories (here `config` and `web`) yield different messages
for the same change set and the same diff texts, so the synthesized
message is not determined by the change set and the diff lookups alone. -/
theorem determinism_counterexample :
    validOrd ⟨[], [], [], ["a.yaml", "b.html"]⟩ ["config", "web"] ∧
    validOrd ⟨[], [], [], ["a.yaml", "b.html"]⟩ ["web", "config"] ∧
    generate_smart_message ⟨[], [], [], ["a.yaml", "b.html"]⟩ (fun _ => "") ["config", "web"] ≠
      generate_smart_message ⟨[], [], [], ["a.yaml", "b.html"]⟩ (fun _ => "") ["web", "config"] := by
  refine ⟨?_, ?_, by decide⟩ <;>
    · unfold validOrd
      decide

/-- C8 amended: the message is a function of the change set, the diff
texts of the touched files, and the set-iteration order of the categories
beyond notebooks, python, data, models and docs; when at most one such
category is present (so the iteration order cannot vary) it is determined
by the change set and diff texts alone. -/
theorem determinism_amended (c : Changes) (d₁ d₂ : String → String) (ord₁ ord₂ : List String)
    (hd : ∀ f ∈ all_files c, d₁ f = d₂ f)
    (h₁ : validOrd c ord₁) (h₂ : validOrd c ord₂)
    (hone : (otherCats c).length ≤ 1) :
    generate_smart_message c d₁ ord₁ = generate_smart_message c d₂ ord₂ := by
  unfold validOrd at h₁ h₂
  have hord : ord₁ = ord₂ := by
    cases hoc : otherCats c with
    | nil =>
      rw [hoc] at h₁ h₂
      rw [List.perm_nil.mp h₁, List.perm_nil.mp h₂]
    | cons a tl =>
      cases tl with
      | nil =>
        rw [hoc] at h₁ h₂
        rw [List.perm_singleton.mp h₁, List.perm_singleton.mp h₂]
      | cons b tl2 => simp [hoc] at hone
  subst hord
  unfold generate_smart_message
  rw [messageParts_congr c d₁ d₂ ord₁ hd]

/-- C8 amended witness: one modified notebook, two diff lookups that agree
on it, the unique admissible (empty) iteration order. -/
theorem determinism_amended_check :
    generate_smart_message ⟨[], ["n.ipynb"], [], []⟩ (fun _ => "plot") [] =
      generate_smart_message ⟨[], ["n.ipynb"], [], []⟩
        (fun f => if f = "n.ipynb" then "plot" else "other diff") [] :=
  determinism_amended ⟨[], ["n.ipynb"], [], []⟩ _ _ [] []
    (by decide) (by unfold validOrd; decide) (by unfold validOrd; decide) (by decide)

/-- The ten categories the classifier can produce. -/
def ALL_CATS : List String :=
  ["notebooks", "python", "data", "models", "docs", "config", "web", "images",
   "sql", "other"]

/-- The category lookup returns a key of the table or the fallback. -/
theorem lookupCategory_mem (ext : String) (table : List (String × List String)) :
    lookupCategory ext table ∈ table.map Prod.fst ++ ["other"] := by
  induction table with
  | nil => simp [lookupCategory]
  | cons ce rest ih =>
    unfold lookupCategory
    split_ifs with h
    · simp
    · simp only [List.map_cons, List.cons_append, List.mem_cons]
      exact Or.inr ih

/-- The classifier is total: every path lands in one of the ten categories
(with `"other"` as the fallback). -/
theorem get_file_category_total (p : String) : get_file_category p ∈ ALL_CATS :=
  lookupCategory_mem (pyLower (pySuffix p)) FILE_CATEGORIES

/-- A touched notebook category always contributes a part. -/
theorem notebooksPart_ne (c : Changes) (diffOf : String → String)
    (h : catFiles c "notebooks" ≠ []) : notebooksPart c diffOf ≠ [] := by
  unfold notebooksPart
  split
  next heq => exact absurd heq h
  next nb heq => split_ifs <;> simp
  next nbs x1 x2 => simp

/-- A touched python category always contributes a part. -/
theorem pythonPart_ne (c : Changes) (diffOf : String → String)
    (h : catFiles c "python" ≠ []) : pythonPart c diffOf ≠ [] := by
  unfold pythonPart
  split
  next heq => exact absurd heq h
  next f heq => split_ifs <;> simp
  next fs x1 x2 => split_ifs <;> simp

/-- A touched data category always contributes a part. -/
theorem dataPart_ne (c : Changes) (h : catFiles c "data" ≠ []) : dataPart c ≠ [] := by
  unfold dataPart
  split
  next heq => exact absurd heq h
  next f heq => simp
  next fs x1 x2 => simp

/-- A touched models category always contributes a part. -/
theorem modelsPart_ne (c : Changes) (h : catFiles c "models" ≠ []) : modelsPart c ≠ [] := by
  unfold modelsPart
  split
  next heq => exact absurd heq h
  next f heq => simp
  next fs x1 x2 => simp

/-- A touched docs category always contributes a part. -/
theorem docsPart_ne (c : Changes) (h : catFiles c "docs" ≠ []) : docsPart c ≠ [] := by
  unfold docsPart
  split
  next heq => exact absurd heq h
  next f heq => simp
  next fs x1 x2 => simp

/-- C10: the classifier is total, so on a non-empty change set the parts
list is non-empty — every touched file's category contributes a part —
and the zero-parts fallback branch (`"<action> <N> files"`) is never
taken: the synthesizer returns some message built from the parts. -/
theorem parts_nonempty (c : Changes) (diffOf : String → String) (ord : List String)
    (hperm : validOrd c ord) (hne : all_files c ≠ []) :
    (∀ p : String, get_file_category p ∈ ALL_CATS) ∧
    messageParts c diffOf ord ≠ [] ∧
    ∃ m, generate_smart_message c diffOf ord = some m := by
  refine ⟨get_file_category_total, ?_, ?_⟩
  · obtain ⟨f, hf⟩ := List.exists_mem_of_ne_nil (all_files c) hne
    have hfc : f ∈ catFiles c (get_file_category f) := by
      unfold catFiles
      exact List.mem_filter.mpr ⟨hf, by simp⟩
    intro hmp
    have hsplit := hmp
    simp only [messageParts, List.append_eq_nil, List.map_eq_nil_iff] at hsplit
    obtain ⟨⟨⟨⟨⟨hnb, hpy⟩, hdat⟩, hmod⟩, hdoc⟩, hord⟩ := hsplit
    have hcases := get_file_category_total f
    simp only [ALL_CATS, List.mem_cons, List.not_mem_nil, or_false] at hcases
    have hother : ∀ cat, get_file_category f = cat → cat ∉ FIXED_CATS → False := by
      intro cat hcat hnf
      have hpres : cat ∈ presentCats c := by
        unfold presentCats
        rw [List.mem_dedup]
        exact hcat ▸ List.mem_map_of_mem get_file_category hf
      have hoc : cat ∈ otherCats c := by
        unfold otherCats
        refine List.mem_filter.mpr ⟨hpres, ?_⟩
        simpa using hnf
      have hmemord : cat ∈ ord := (hperm.mem_iff).mpr hoc
      rw [hord] at hmemord
      exact List.not_mem_nil cat hmemord
    rcases hcases with h | h | h | h | h | h | h | h | h | h
    · exact notebooksPart_ne c diffOf (h ▸ List.ne_nil_of_mem hfc) hnb
    · exact pythonPart_ne c diffOf (h ▸ List.ne_nil_of_mem hfc) hpy
    · exact dataPart_ne c (h ▸ List.ne_nil_of_mem hfc) hdat
    · exact modelsPart_ne c (h ▸ List.ne_nil_of_mem hfc) hmod
    · exact docsPart_ne c (h ▸ List.ne_nil_of_mem hfc) hdoc
    · exact hother "config" h (by decide)
    · exact hother "web" h (by decide)
    · exact hother "images" h (by decide)
    · exact hother "sql" h (by decide)
    · exact hother "other" h (by decide)
  · obtain ⟨t, ht⟩ := gsm_some_form c diffOf ord hne
    exact ⟨_, ht⟩

/-- C10 witness: one untracked image; the only admissible iteration order
is `["images"]` and the message exists with a non-empty parts list. -/
theorem parts_nonempty_check :
    (messageParts ⟨[], [], [], ["z.png"]⟩ (fun _ => "") ["images"]).isEmpty = false ∧
    (generate_smart_message ⟨[], [], [], ["z.png"]⟩ (fun _ => "") ["images"]).isSome = true := by
  have h := parts_nonempty ⟨[], [], [], ["z.png"]⟩ (fun _ => "") ["images"]
    (by unfold validOrd; decide) (by decide)
  constructor
  · cases hmp : messageParts ⟨[], [], [], ["z.png"]⟩ (fun _ => "") ["images"] with
    | nil => exact absurd hmp h.2.1
    | cons a tl => rfl
  · obtain ⟨m, hm⟩ := h.2.2
    rw [hm]
    rfl

/-- C7: when staging and commit succeed and the subsequent push fails, the
cycle invokes exactly stage, commit and push — nothing that undoes the
commit — the commit counter is still incremented, the cycle still reports
the commit, and the loop goes on to process the remaining cycles. -/
theorem push_failure_keeps_commit (e : CycleEnv) (msg : String)
    (hdry : e.dryRun = false)
    (htot : totalChanges e.changes > 0)
    (hmsg : generate_smart_message e.changes e.diffOf e.ord = some msg)
    (hstage : e.stageOk = true)
    (hcommit : e.commitOk = true)
    (hpush : e.pushFlag = true)
    (hpushok : e.pushOk = false) :
    (runCycle e).ops = [GitOp.stageAll, GitOp.commitWith msg, GitOp.push] ∧
    (runCycle e).commitInc = 1 ∧
    Event.committedNote msg ∈ (runCycle e).events ∧
    ∀ rest, (runLoop (e :: rest)).1 = 1 + (runLoop rest).1 := by
  have hrun : runCycle e =
      ⟨[GitOp.stageAll, GitOp.commitWith msg, GitOp.push], 1,
       [Event.committedNote msg, Event.pushWarn]⟩ := by
    unfold runCycle
    rw [if_pos htot, hmsg, hdry, hstage, hcommit, hpush, hpushok]
    simp
  refine ⟨by rw [hrun], by rw [hrun], by rw [hrun]; simp, ?_⟩
  intro rest
  simp [runLoop, hrun]

/-- C7 witness: a concrete live cycle with one modified Python file whose
push fails still counts and reports the commit. -/
theorem push_failure_keeps_commit_check :
    (runCycle ⟨⟨[], ["a.py"], [], []⟩, fun _ => "", [], false, true, false, true, true, false⟩).ops =
      [GitOp.stageAll, GitOp.commitWith "Update a.py: code changes", GitOp.push] ∧
    (runCycle ⟨⟨[], ["a.py"], [], []⟩, fun _ => "", [], false, true, false, true, true, false⟩).commitInc = 1 ∧
    Event.committedNote "Update a.py: code changes" ∈
      (runCycle ⟨⟨[], ["a.py"], [], []⟩, fun _ => "", [], false, true, false, true, true, false⟩).events ∧
    (runLoop [⟨⟨[], ["a.py"], [], []⟩, fun _ => "", [], false, true, false, true, true, false⟩]).1 =
      1 + (runLoop []).1 := by
  have h := push_failure_keeps_commit
    ⟨⟨[], ["a.py"], [], []⟩, fun _ => "", [], false, true, false, true, true, false⟩
    "Update a.py: code changes" rfl (by decide) (by decide) rfl rfl rfl rfl
  exact ⟨h.1, h.2.1, h.2.2.1, h.2.2.2 []⟩

/-- C9: a dry-run cycle performs no mutation — no stage, commit or push
operation is invoked, the commit counter stays untouched — and when there
are changes with a synthesized message, the only report is the projected
message together with the contributing files. -/
theorem dry_run_no_mutation (e : CycleEnv) (hdry : e.dryRun = true) :
    (runCycle e).ops = [] ∧
    (runCycle e).commitInc = 0 ∧
    (∀ msg, totalChanges e.changes > 0 →
      generate_smart_message e.changes e.diffOf e.ord = some msg →
      (runCycle e).events = [Event.wouldCommit msg e.changes]) := by
  unfold runCycle
  by_cases htot : totalChanges e.changes > 0
  · rw [if_pos htot]
    cases hmsg : generate_smart_message e.changes e.diffOf e.ord with
    | none => exact ⟨rfl, rfl, fun msg _ hm => by cases hm⟩
    | some m =>
      rw [hdry]
      refine ⟨rfl, rfl, fun msg _ hm => ?_⟩
      cases hm
      rfl
  · rw [if_neg htot]
    exact ⟨rfl, rfl, fun msg h _ => absurd h htot⟩

/-- C9 witness: a dry-run cycle over one modified Python file mutates
nothing and reports only the projected commit. -/
theorem dry_run_no_mutation_check :
    (runCycle ⟨⟨[], ["a.py"], [], []⟩, fun _ => "", [], true, true, false, true, true, true⟩).ops = [] ∧
    (runCycle ⟨⟨[], ["a.py"], [], []⟩, fun _ => "", [], true, true, false, true, true, true⟩).commitInc = 0 ∧
    (runCycle ⟨⟨[], ["a.py"], [], []⟩, fun _ => "", [], true, true, false, true, true, true⟩).events =
      [Event.wouldCommit "Update a.py: code changes" ⟨[], ["a.py"], [], []⟩] := by
  have h := dry_run_no_mutation
    ⟨⟨[], ["a.py"], [], []⟩, fun _ => "", [], true, true, false, true, true, true⟩ rfl
  exact ⟨h.1, h.2.1, h.2.2 "Update a.py: code changes" (by decide) (by decide)⟩

/-- Appending a path to one bucket raises exactly that path's total count
across the four buckets by one. -/
theorem bucketCount_addToBucket (c : Changes) (b : Bucket) (q p : String) :
    bucketCount (addToBucket c b q) p = bucketCount c p + (if q = p then 1 else 0) := by
  cases b <;>
    simp only [addToBucket, bucketCount, List.count_append, List.count_singleton] <;>
    by_cases h : q = p <;>
    simp [h, beq_iff_eq] <;>
    omega

/-- One status line raises the resolved path's total bucket count by one
and leaves every other count unchanged (empty lines are skipped). -/
theorem bucketCount_processLine (c : Changes) (line p : String) :
    bucketCount (processLine c line) p =
      bucketCount c p + (if line ≠ "" ∧ linePath line = p then 1 else 0) := by
  by_cases h1 : line = ""
  · simp [processLine, h1]
  · simp only [processLine, if_neg h1]
    rw [bucketCount_addToBucket]
    congr 1
    by_cases h2 : linePath line = p <;> simp [h1, h2]

/-- Accumulated form of the partition property over the line fold. -/
theorem bucketCount_foldl (lines : List String) (p : String) : ∀ c : Changes,
    bucketCount (lines.foldl processLine c) p =
      bucketCount c p + lines.countP (fun l => !(l == "") && (linePath l == p)) := by
  induction lines with
  | nil => intro c; simp
  | cons l rest ih =>
    intro c
    simp only [List.foldl_cons, List.countP_cons]
    rw [ih (processLine c l), bucketCount_processLine]
    have hsame : (if l ≠ "" ∧ linePath l = p then 1 else 0) =
        (if (!(l == "") && (linePath l == p)) = true then 1 else 0) := by
      by_cases hA : l = "" <;> by_cases hB : linePath l = p <;> simp [hA, hB]
    rw [hsame]
    omega

theorem sw_append_self (l t : List Char) : startsWithL l (l ++ t) = true := by
  induction l with
  | nil => rfl
  | cons a as ih => simp [startsWithL, ih]

theorem sw_ne_nil_contains (sub : List Char) (s : List Char) (hne : s ≠ [])
    (hsw : startsWithL sub s = true) : pyContainsL sub s = true := by
  cases s with
  | nil => exact absurd rfl hne
  | cons c rest => simp [pyContainsL, hsw]

theorem sw_take_eq (sub : List Char) : ∀ (s₁ s₂ : List Char),
    s₁.take sub.length = s₂.take sub.length → startsWithL sub s₁ = startsWithL sub s₂ := by
  induction sub with
  | nil => intro s₁ s₂ _; cases s₁ <;> cases s₂ <;> rfl
  | cons a as ih =>
    intro s₁ s₂ h
    cases s₁ with
    | nil =>
      cases s₂ with
      | nil => rfl
      | cons b2 bs2 => simp [List.take] at h
    | cons b bs =>
      cases s₂ with
      | nil => simp [List.take] at h
      | cons b2 bs2 =>
        simp only [List.length_cons, List.take_succ_cons, List.cons.injEq] at h
        simp [startsWithL, h.1, ih bs bs2 h.2]

theorem takeAgree₃ (o X : List Char) : ∀ (k : Nat), k ≤ 3 →
    (o ++ (arrowSep ++ X)).take k = (o ++ ([' ', '-', '>'] : List Char)).take k := by
  induction o with
  | nil =>
    intro k hk
    interval_cases k <;> rfl
  | cons c o' ih =>
    intro k hk
    cases k with
    | zero => rfl
    | succ k' =>
      simp only [List.cons_append, List.take_succ_cons]
      rw [ih k' (by omega)]

theorem noArrow_split (s : List Char) (h : pyContainsL arrowSep s = false) :
    ∀ (fuel : Nat), s.length ≤ fuel → ∀ (acc : List Char),
      pySplitArrowAux fuel s acc = [acc.reverse ++ s] := by
  induction s with
  | nil =>
    intro fuel _ acc
    cases fuel <;> simp [pySplitArrowAux]
  | cons c rest ih =>
    intro fuel hf acc
    simp only [pyContainsL, Bool.or_eq_false_iff] at h
    cases fuel with
    | zero => simp at hf
    | succ f =>
      simp only [pySplitArrowAux, h.1]
      rw [ih h.2 f (by simp at hf; omega) (c :: acc)]
      simp

theorem contains_append_arrow (old new : List Char) :
    pyContainsL arrowSep (old ++ (arrowSep ++ new)) = true := by
  induction old with
  | nil =>
    refine sw_ne_nil_contains arrowSep (arrowSep ++ new) (by simp [arrowSep]) ?_
    exact sw_append_self arrowSep new
  | cons c old' ih =>
    simp [pyContainsL, ih]

theorem split_at_arrow (old : List Char) :
    pyContainsL arrowSep (old ++ ([' ', '-', '>'] : List Char)) = false →
    ∀ (new : List Char), pyContainsL arrowSep new = false →
    ∀ (fuel : Nat), (old ++ (arrowSep ++ new)).length ≤ fuel →
    ∀ (acc : List Char),
      pySplitArrowAux fuel (old ++ (arrowSep ++ new)) acc = [acc.reverse ++ old, new] := by
  induction old with
  | nil =>
    intro _ new h2 fuel hf acc
    cases fuel with
    | zero => simp [arrowSep] at hf
    | succ f =>
      show pySplitArrowAux (f + 1) (' ' :: ('-' :: '>' :: ' ' :: new)) acc = _
      simp only [pySplitArrowAux]
      rw [if_pos (show startsWithL arrowSep (' ' :: ('-' :: '>' :: ' ' :: new)) = true from
        sw_append_self arrowSep new)]
      rw [show ('-' :: '>' :: ' ' :: new).drop 3 = new from rfl]
      rw [noArrow_split new h2 f (by simp [arrowSep] at hf; omega) []]
      simp
  | cons c old' ih =>
    intro h1 new h2 fuel hf acc
    have h1' : startsWithL arrowSep (c :: (old' ++ [' ', '-', '>'])) = false ∧
        pyContainsL arrowSep (old' ++ [' ', '-', '>']) = false := by
      simpa [pyContainsL, Bool.or_eq_false_iff] using h1
    have h3 : (c :: (old' ++ (arrowSep ++ new))).take arrowSep.length =
        (c :: (old' ++ ([' ', '-', '>'] : List Char))).take arrowSep.length := by
      show (c :: (old' ++ (arrowSep ++ new))).take 4 =
        (c :: (old' ++ ([' ', '-', '>'] : List Char))).take 4
      simp only [List.take_succ_cons]
      rw [takeAgree₃ old' new 3 (by omega)]
    have hsw : startsWithL arrowSep (c :: (old' ++ (arrowSep ++ new))) = false :=
      (sw_take_eq arrowSep _ _ h3).trans h1'.1
    cases fuel with
    | zero => simp at hf
    | succ f =>
      show pySplitArrowAux (f + 1) (c :: (old' ++ (arrowSep ++ new))) acc = _
      simp only [pySplitArrowAux, hsw]
      rw [ih h1'.2 new h2 f (by simp [arrowSep] at hf ⊢; omega) (c :: acc)]
      simp

/-- `String.append` acts as list append on the underlying characters. -/
theorem str_data_append (a b : String) : (a ++ b).data = a.data ++ b.data := by
  obtain ⟨la⟩ := a
  obtain ⟨lb⟩ := b
  rfl

/-- A porcelain rename entry `old -> new` resolves to `new`: the
hypotheses say the arrow occurs nowhere in `old` (not even overlapping its
end) nor in `new`, so the first split is exactly at the written arrow. -/
theorem rename_resolves (old new : String)
    (h1 : pyContains (old ++ " ->") " -> " = false)
    (h2 : pyContains new " -> " = false) :
    resolveRename (old ++ (" -> " ++ new)) = new := by
  obtain ⟨lo⟩ := old
  obtain ⟨ln⟩ := new
  have h1' : pyContainsL arrowSep (lo ++ [' ', '-', '>']) = false := h1
  have h2' : pyContainsL arrowSep ln = false := h2
  have hd : (String.mk lo ++ (" -> " ++ String.mk ln)).data = lo ++ (arrowSep ++ ln) := by
    rw [str_data_append, str_data_append]
    rfl
  unfold resolveRename
  rw [show pyContains (String.mk lo ++ (" -> " ++ String.mk ln)) " -> " =
      pyContainsL arrowSep (lo ++ (arrowSep ++ ln)) by rw [pyContains, hd]; rfl]
  rw [if_pos (contains_append_arrow lo ln)]
  unfold pySplitArrow
  rw [show (String.mk lo ++ (" -> " ++ String.mk ln)).data = lo ++ (arrowSep ++ ln) from hd]
  rw [split_at_arrow lo h1' ln h2' _ (le_refl _) []]
  simp

/-- C3: every non-empty status line contributes its resolved path to
exactly one bucket — the total bucket count of a path equals the number of
non-empty lines resolving to it, so each status output partitions its
paths — and a rename entry `old -> new` contributes only the new path. -/
theorem bucket_partition :
    (∀ (lines : List String) (p : String),
      bucketCount (get_changed_files lines) p =
        lines.countP (fun l => !(l == "") && (linePath l == p))) ∧
    (∀ old new : String, pyContains (old ++ " ->") " -> " = false →
      pyContains new " -> " = false →
      resolveRename (old ++ (" -> " ++ new)) = new) := by
  constructor
  · intro lines p
    unfold get_changed_files
    rw [bucketCount_foldl]
    simp [bucketCount]
  · exact fun old new h1 h2 => rename_resolves old new h1 h2

/-- C3 witness: a concrete rename entry resolves to its new path, and a
concrete two-line status output has each path counted once. -/
theorem bucket_partition_check :
    resolveRename ("old.py" ++ (" -> " ++ "new.py")) = "new.py" ∧
    bucketCount (get_changed_files ["?? a.txt", " M b.py"]) "a.txt" =
      List.countP (fun l => !(l == "") && (linePath l == "a.txt"))
        ["?? a.txt", " M b.py"] :=
  ⟨bucket_partition.2 "old.py" "new.py" (by decide) (by decide),
   bucket_partition.1 ["?? a.txt", " M b.py"] "a.txt"⟩
